import Mathlib

/-!
Verification of the GeoModel NURBS surface-evaluation kernel.

This file shallowly embeds the Rust sources of the kernel
(`nurbs-core/src/basis.rs`, `surface.rs`, `derivatives.rs`, `ffi.rs`)
into Lean.  Machine floating-point values are modelled as exact
rationals, and as reals where square roots occur; buffers are lists or
index functions.  Every definition mirrors the corresponding Rust
function; the theorems at the end of the file settle the specification
claims about them.
-/

namespace GeoModel

/-- A 3D point/vector (`[f64; 3]` in the source), with rational coordinates. -/
structure Vec3 where
  x : ℚ
  y : ℚ
  z : ℚ
deriving DecidableEq, Repr

/-- A 3D vector with real coordinates, for the normal/curvature results whose
computation involves square roots. -/
structure Vec3R where
  x : ℝ
  y : ℝ
  z : ℝ

/-- Knot lookup `knots[i]`; in the source indices are always in range,
out-of-range access is modelled by the junk value 0. -/
def knot (knots : List ℚ) (i : ℕ) : ℚ := knots.getD i 0

/-- The binary-search loop of `CoxDeBoor::find_span` (basis.rs lines 45-58):
while `high - low > 1`, take `mid = (low+high)/2` and move `high` down to
`mid` when `t < knots[mid]`, else move `low` up to `mid`; return `low`. -/
def spanSearch (t : ℚ) (knots : List ℚ) (low high : ℕ) : ℕ :=
  if high - low > 1 then
    if t < knot knots ((low + high) / 2) then spanSearch t knots low ((low + high) / 2)
    else spanSearch t knots ((low + high) / 2) high
  else low
termination_by high - low
decreasing_by
  · omega
  · omega

/-- Model of `CoxDeBoor::find_span` (basis.rs lines 32-59): with
`n = knots.len() - degree - 1`, clamp to `n-1` when `t ≥ knots[n]`, to
`degree` when `t ≤ knots[degree]`, otherwise binary-search `[degree, n]`. -/
def find_span (t : ℚ) (degree : ℕ) (knots : List ℚ) : ℕ :=
  let n := knots.length - degree - 1
  if t ≥ knot knots n then n - 1
  else if t ≤ knot knots degree then degree
  else spanSearch t knots degree n

/-- The knot-distance term `left[j] = t - knots[span + 1 - j]` of
`CoxDeBoor::basis_funs` (basis.rs line 69); the source array entry `left[j]`
always holds exactly this value when read. -/
def leftK (t : ℚ) (knots : List ℚ) (span j : ℕ) : ℚ :=
  t - knot knots (span + 1 - j)

/-- The knot-distance term `right[j] = knots[span + j] - t` of
`CoxDeBoor::basis_funs` (basis.rs line 70). -/
def rightK (t : ℚ) (knots : List ℚ) (span j : ℕ) : ℚ :=
  knot knots (span + j) - t

/-- One iteration of the inner loop `for r in 0..j` of
`CoxDeBoor::basis_funs` (basis.rs lines 74-78).  The state is the output
list together with the running carry `saved`. -/
def basisInnerStep (t : ℚ) (knots : List ℚ) (span j : ℕ)
    (st : List ℚ × ℚ) (r : ℕ) : List ℚ × ℚ :=
  let temp := st.1.getD r 0 / (rightK t knots span (r + 1) + leftK t knots span (j - r))
  (st.1.set r (st.2 + rightK t knots span (r + 1) * temp),
   leftK t knots span (j - r) * temp)

/-- One iteration of the outer loop `for j in 1..=degree` of
`CoxDeBoor::basis_funs` (basis.rs lines 68-81): run the inner loop starting
from `saved = 0`, then write `output[j] = saved`. -/
def basisOuterStep (t : ℚ) (knots : List ℚ) (span : ℕ)
    (out : List ℚ) (jm1 : ℕ) : List ℚ :=
  let j := jm1 + 1
  let st := (List.range j).foldl (basisInnerStep t knots span j) (out, 0)
  st.1.set j st.2

/-- Model of `CoxDeBoor::basis_funs` (basis.rs lines 62-82): the triangular
Cox-de Boor recurrence, producing the `degree+1` nonzero basis values,
starting from `output[0] = 1`. -/
def basis_funs (span : ℕ) (t : ℚ) (degree : ℕ) (knots : List ℚ) : List ℚ :=
  (List.range degree).foldl (basisOuterStep t knots span)
    ((List.replicate (degree + 1) 0).set 0 1)

/-- One iteration of the scatter loop `for i in 0..=degree` of
`CoxDeBoor::evaluate_all` (basis.rs lines 23-28): write `basis[i]` into
`output[span - degree + i]` when that index is `< n`. -/
def scatterStep (n span degree : ℕ) (basis : List ℚ)
    (out : List ℚ) (i : ℕ) : List ℚ :=
  let idx := span - degree + i
  if idx < n then out.set idx (basis.getD i 0) else out

/-- Model of `CoxDeBoor::evaluate_all` (basis.rs lines 6-29): zero-fill a length-`n`
output, find the knot span, compute the nonzero basis values, and scatter
them into the output at indices `span - degree ..= span`. -/
def evaluate_all (t : ℚ) (knots : List ℚ) (degree : ℕ) : List ℚ :=
  let n := knots.length - degree - 1
  let span := find_span t degree knots
  let basis := basis_funs span t degree knots
  (List.range (degree + 1)).foldl (scatterStep n span degree basis)
    (List.replicate n 0)

/-- Model of `NURBSSurface` (surface.rs lines 5-12).  The `Array3` control-point grid
(whose inner dimension 3 is asserted at construction) is modelled as an
index function into `Vec3`, the `Array2` weight grid as an index function
into `ℚ`; the grid shape `(u_count, v_count)` is carried explicitly. -/
structure NURBSSurface where
  degree_u : ℕ
  degree_v : ℕ
  u_count : ℕ
  v_count : ℕ
  control_points : ℕ → ℕ → Vec3
  weights : ℕ → ℕ → ℚ
  knots_u : List ℚ
  knots_v : List ℚ

/-- The construction-time assertions of `NURBSSurface::new` (surface.rs lines
24-45) that are not already enforced by the typed model: each knot vector's
length equals its axis's control-point count plus degree plus 1.  (The inner
dimension 3 and the position/weight shape agreement are built into the types
of `control_points` and `weights` plus the shared `u_count`/`v_count`.) -/
def NURBSSurface.valid (S : NURBSSurface) : Prop :=
  S.knots_u.length = S.u_count + S.degree_u + 1 ∧
  S.knots_v.length = S.v_count + S.degree_v + 1

/-- The `weight_sum` accumulation loop of `NURBSSurface::evaluate`
(surface.rs lines 70-75). -/
def NURBSSurface.weightSum (S : NURBSSurface) (basis_u basis_v : List ℚ) : ℚ :=
  (List.range S.u_count).foldl (fun acc i =>
    (List.range S.v_count).foldl (fun acc2 j =>
      acc2 + basis_u.getD i 0 * basis_v.getD j 0 * S.weights i j) acc) 0

/-- Model of `NURBSSurface::evaluate` (surface.rs lines 58-90): full-length zero-padded
basis arrays in `u` and `v`, the rational weight sum, then the accumulation
of `rational_basis * control_point` over the full grid. -/
def NURBSSurface.evaluate (S : NURBSSurface) (u v : ℚ) : Vec3 :=
  let basis_u := evaluate_all u S.knots_u S.degree_u
  let basis_v := evaluate_all v S.knots_v S.degree_v
  let weight_sum := S.weightSum basis_u basis_v
  (List.range S.u_count).foldl (fun p i =>
    (List.range S.v_count).foldl (fun q j =>
      let rational_basis := basis_u.getD i 0 * basis_v.getD j 0 * S.weights i j / weight_sum
      ⟨q.x + rational_basis * (S.control_points i j).x,
       q.y + rational_basis * (S.control_points i j).y,
       q.z + rational_basis * (S.control_points i j).z⟩) p) ⟨0, 0, 0⟩

/-- Model of `NURBSSurface::evaluate_batch` (surface.rs lines 93-98): `rayon`'s
`par_iter().map(...).collect()` is an order-preserving independent map,
modelled by `List.map`. -/
def NURBSSurface.evaluate_batch (S : NURBSSurface) (uv_pairs : List (ℚ × ℚ)) :
    List Vec3 :=
  uv_pairs.map fun p => S.evaluate p.1 p.2

/-- Model of `NURBSSurface::evaluate_grid` (surface.rs lines 101-124): sample steps
`1/(samples-1)` per axis, every row computed (in parallel in the source) by
evaluating at `(i * u_step, j * v_step)`.  The `(u_samples, v_samples, 3)`
array is modelled as a list of rows of points. -/
def NURBSSurface.evaluate_grid (S : NURBSSurface) (u_samples v_samples : ℕ) :
    List (List Vec3) :=
  let u_step : ℚ := 1 / ((u_samples - 1 : ℕ) : ℚ)
  let v_step : ℚ := 1 / ((v_samples - 1 : ℕ) : ℚ)
  (List.range u_samples).map fun (i : ℕ) =>
    (List.range v_samples).map fun (j : ℕ) =>
      S.evaluate ((i : ℚ) * u_step) ((j : ℚ) * v_step)

/-- The finite-difference step `eps = 1e-6` of `compute_tangent`
(derivatives.rs line 5). -/
def epsTangent : ℚ := 1 / 1000000

/-- Model of `compute_tangent` (derivatives.rs lines 4-27): central differences with
step `1e-6`, each evaluation parameter clamped into `[0,1]` by
`(x + eps).min(1.0)` / `(x - eps).max(0.0)`. -/
def compute_tangent (S : NURBSSurface) (u v : ℚ) : Vec3 × Vec3 :=
  let u_plus := S.evaluate (min (u + epsTangent) 1) v
  let u_minus := S.evaluate (max (u - epsTangent) 0) v
  let v_plus := S.evaluate u (min (v + epsTangent) 1)
  let v_minus := S.evaluate u (max (v - epsTangent) 0)
  (⟨(u_plus.x - u_minus.x) / (2 * epsTangent),
    (u_plus.y - u_minus.y) / (2 * epsTangent),
    (u_plus.z - u_minus.z) / (2 * epsTangent)⟩,
   ⟨(v_plus.x - v_minus.x) / (2 * epsTangent),
    (v_plus.y - v_minus.y) / (2 * epsTangent),
    (v_plus.z - v_minus.z) / (2 * epsTangent)⟩)

/-- The `dot` helper of derivatives.rs (lines 112-114). -/
def dotQ (a b : Vec3) : ℚ := a.x * b.x + a.y * b.y + a.z * b.z

/-- The inline cross product of `compute_normal` (derivatives.rs lines
34-38), applied to the two tangents at `(u, v)`. -/
def normalCross (S : NURBSSurface) (u v : ℚ) : Vec3 :=
  let du := (compute_tangent S u v).1
  let dv := (compute_tangent S u v).2
  ⟨du.y * dv.z - du.z * dv.y,
   du.z * dv.x - du.x * dv.z,
   du.x * dv.y - du.y * dv.x⟩

/-- The squared length `normal[0]^2 + normal[1]^2 + normal[2]^2` whose square
root `compute_normal` takes (derivatives.rs line 41). -/
def normalLenSq (S : NURBSSurface) (u v : ℚ) : ℚ :=
  (normalCross S u v).x ^ 2 + (normalCross S u v).y ^ 2 + (normalCross S u v).z ^ 2

/-- Model of `compute_normal` (derivatives.rs lines 30-48): normalize the tangent
cross product when its length exceeds `1e-10`, else return the fixed
degenerate-case fallback `[0, 0, 1]`. -/
noncomputable def compute_normal (S : NURBSSurface) (u v : ℚ) : Vec3R :=
  let nrm := normalCross S u v
  let length : ℝ := Real.sqrt ((normalLenSq S u v : ℚ) : ℝ)
  if (1 / 10 ^ 10 : ℝ) < length then
    ⟨(nrm.x : ℝ) / length, (nrm.y : ℝ) / length, (nrm.z : ℝ) / length⟩
  else ⟨0, 0, 1⟩

/-- The finite-difference step `eps = 1e-5` of `compute_curvature`
(derivatives.rs line 52). -/
def epsCurv : ℚ := 1 / 100000

/-- The three second-derivative estimates `(duu, dvv, duv)` of
`compute_curvature` (derivatives.rs lines 57-84): second-order central
differences for `duu` and `dvv`, and for `duv` the stencil
`(P(u+ε,v+ε) - P(u+ε,v) - P(u,v+ε) + P(u,v)) / ε²`, all evaluation
parameters clamped into `[0,1]`.  (The source also computes
`u_minus_v_minus` but never uses it.) -/
def secondDerivs (S : NURBSSurface) (u v : ℚ) : Vec3 × Vec3 × Vec3 :=
  let p := S.evaluate u v
  let u_plus := S.evaluate (min (u + epsCurv) 1) v
  let u_minus := S.evaluate (max (u - epsCurv) 0) v
  let v_plus := S.evaluate u (min (v + epsCurv) 1)
  let v_minus := S.evaluate u (max (v - epsCurv) 0)
  let upvp := S.evaluate (min (u + epsCurv) 1) (min (v + epsCurv) 1)
  (⟨(u_plus.x - 2 * p.x + u_minus.x) / (epsCurv * epsCurv),
    (u_plus.y - 2 * p.y + u_minus.y) / (epsCurv * epsCurv),
    (u_plus.z - 2 * p.z + u_minus.z) / (epsCurv * epsCurv)⟩,
   ⟨(v_plus.x - 2 * p.x + v_minus.x) / (epsCurv * epsCurv),
    (v_plus.y - 2 * p.y + v_minus.y) / (epsCurv * epsCurv),
    (v_plus.z - 2 * p.z + v_minus.z) / (epsCurv * epsCurv)⟩,
   ⟨(upvp.x - u_plus.x - v_plus.x + p.x) / (epsCurv * epsCurv),
    (upvp.y - u_plus.y - v_plus.y + p.y) / (epsCurv * epsCurv),
    (upvp.z - u_plus.z - v_plus.z + p.z) / (epsCurv * epsCurv)⟩)

/-- The first-fundamental-form coefficients `(e, f, g)` of
`compute_curvature` (derivatives.rs lines 90-92). -/
def metricEFG (S : NURBSSurface) (u v : ℚ) : ℚ × ℚ × ℚ :=
  let du := (compute_tangent S u v).1
  let dv := (compute_tangent S u v).2
  (dotQ du du, dotQ du dv, dotQ dv dv)

/-- The first-fundamental-form determinant `e * g - f * f` that
`compute_curvature` divides by (derivatives.rs lines 100-101). -/
def metricDet (S : NURBSSurface) (u v : ℚ) : ℚ :=
  (metricEFG S u v).1 * (metricEFG S u v).2.2 -
    (metricEFG S u v).2.1 * (metricEFG S u v).2.1

/-- Dot product of a rational vector with a real vector (the
second-fundamental-form coefficients `L`, `M`, `N` dot the finite-difference
vectors with the unit normal). -/
noncomputable def dotR (a : Vec3) (b : Vec3R) : ℝ :=
  (a.x : ℝ) * b.x + (a.y : ℝ) * b.y + (a.z : ℝ) * b.z

/-- Model of `compute_curvature` (derivatives.rs lines 51-109): fundamental-form
coefficients from finite differences, Gaussian and mean curvature by
division by `e*g - f*f`, principal curvatures `k_mean ± sqrt(max(k_mean² -
k_gaussian, 0))`.  There is no guard on the size of `e*g - f*f`. -/
noncomputable def compute_curvature (S : NURBSSurface) (u v : ℚ) : ℝ × ℝ :=
  let e : ℝ := ((metricEFG S u v).1 : ℝ)
  let f : ℝ := ((metricEFG S u v).2.1 : ℝ)
  let g : ℝ := ((metricEFG S u v).2.2 : ℝ)
  let n := compute_normal S u v
  let l := dotR (secondDerivs S u v).1 n
  let m := dotR (secondDerivs S u v).2.2 n
  let n_coef := dotR (secondDerivs S u v).2.1 n
  let k_gaussian := (l * n_coef - m * m) / (e * g - f * f)
  let k_mean := (e * n_coef - 2 * f * m + g * l) / (2 * (e * g - f * f))
  let discriminant := Real.sqrt (max (k_mean * k_mean - k_gaussian) 0)
  (k_mean + discriminant, k_mean - discriminant)

/-- The spec's claimed symmetric 4-point stencil for the mixed partial
(spec section 4.3): `((u+ε,v+ε) - (u+ε,v-ε) - (u-ε,v+ε) + (u-ε,v-ε)) / 4ε²`.
This is the claim's formula, stated for comparison with the `duv` the code
actually computes in `secondDerivs`. -/
def duvSymmetricSpec (S : NURBSSurface) (u v : ℚ) : Vec3 :=
  let pp := S.evaluate (u + epsCurv) (v + epsCurv)
  let pm := S.evaluate (u + epsCurv) (v - epsCurv)
  let mp := S.evaluate (u - epsCurv) (v + epsCurv)
  let mm := S.evaluate (u - epsCurv) (v - epsCurv)
  ⟨(pp.x - pm.x - mp.x + mm.x) / (4 * epsCurv * epsCurv),
   (pp.y - pm.y - mp.y + mm.y) / (4 * epsCurv * epsCurv),
   (pp.z - pm.z - mp.z + mm.z) / (4 * epsCurv * epsCurv)⟩

/-- Result of the boundary operation `nurbs_create` (ffi.rs lines 19-70):
either a handle owning a surface, a null return (the `Err` branches of the
shape checks), or a crash (`panicked` models the `assert_eq!` failures
inside `NURBSSurface::new`, which abort rather than return). -/
inductive CreateResult where
  | handle (s : NURBSSurface)
  | nullRet
  | panicked
deriving Nonempty

/-- Model of `NURBSSurface::new` (surface.rs lines 16-55) as seen through the FFI: the
`assert_eq!` validations abort on failure, modelled by `none`.  The asserts
on the inner dimension 3 and on the position/weight shape agreement are
enforced by the typed model; the two knot-length asserts remain. -/
def NURBSSurface.tryNew (degree_u degree_v u_count v_count : ℕ)
    (cps : ℕ → ℕ → Vec3) (ws : ℕ → ℕ → ℚ) (knots_u knots_v : List ℚ) :
    Option NURBSSurface :=
  if knots_u.length = u_count + degree_u + 1 ∧
      knots_v.length = v_count + degree_v + 1 then
    some ⟨degree_u, degree_v, u_count, v_count, cps, ws, knots_u, knots_v⟩
  else none

/-- Model of `nurbs_create` (ffi.rs lines 19-70).  The flat buffers arrive as lists;
`Array3::from_shape_vec((u_res, v_res, 3), ...)` and
`Array2::from_shape_vec((u_res, v_res), ...)` fail (null return) exactly
when a buffer length disagrees with the announced shape, and the grids are
read row-major: `control_points[(i * v_res + j) * 3 + k]`,
`weights[i * v_res + j]`.  A knot-length mismatch then aborts inside
`NURBSSurface::new`. -/
def nurbs_create (degree_u degree_v u_res v_res : ℕ)
    (control_points weights knots_u knots_v : List ℚ) : CreateResult :=
  if control_points.length ≠ u_res * v_res * 3 then .nullRet
  else if weights.length ≠ u_res * v_res then .nullRet
  else
    match NURBSSurface.tryNew degree_u degree_v u_res v_res
        (fun i j => ⟨control_points.getD ((i * v_res + j) * 3) 0,
                     control_points.getD ((i * v_res + j) * 3 + 1) 0,
                     control_points.getD ((i * v_res + j) * 3 + 2) 0⟩)
        (fun i j => weights.getD (i * v_res + j) 0) knots_u knots_v with
    | some s => .handle s
    | none => .panicked

/-- Model of `nurbs_evaluate` (ffi.rs lines 77-92): a null handle is a safe no-op
(the output buffer is left untouched); otherwise the evaluation result is
written into the output buffer. -/
def nurbs_evaluate (handle : Option NURBSSurface) (u v : ℚ) (output : Vec3) :
    Vec3 :=
  match handle with
  | none => output
  | some s => s.evaluate u v

/-- The surface obtained from `S` by multiplying every weight by `c`,
leaving degrees, knots and control points unchanged (for the implicit
weight-scale-invariance claim about `NURBSSurface::evaluate`). -/
def scaleWeights (S : NURBSSurface) (c : ℚ) : NURBSSurface :=
  { S with weights := fun i j => c * S.weights i j }

/-- The spec's rational-point formula (spec section 4.2):
`P(u,v) = Σ_i Σ_j [basis_u[i] · basis_v[j] · w[i,j] / S] · C[i,j]` with
`S = Σ Σ basis_u · basis_v · w`, both sums over the full control grid,
with the full-length zero-padded basis arrays. -/
def specRationalPoint (S : NURBSSurface) (u v : ℚ) : Vec3 :=
  let bu := evaluate_all u S.knots_u S.degree_u
  let bv := evaluate_all v S.knots_v S.degree_v
  let total := ∑ i ∈ Finset.range S.u_count, ∑ j ∈ Finset.range S.v_count,
    bu.getD i 0 * bv.getD j 0 * S.weights i j
  ⟨∑ i ∈ Finset.range S.u_count, ∑ j ∈ Finset.range S.v_count,
      bu.getD i 0 * bv.getD j 0 * S.weights i j / total * (S.control_points i j).x,
   ∑ i ∈ Finset.range S.u_count, ∑ j ∈ Finset.range S.v_count,
      bu.getD i 0 * bv.getD j 0 * S.weights i j / total * (S.control_points i j).y,
   ∑ i ∈ Finset.range S.u_count, ∑ j ∈ Finset.range S.v_count,
      bu.getD i 0 * bv.getD j 0 * S.weights i j / total * (S.control_points i j).z⟩

/-- The amended description of `compute_curvature`'s behavior: the
fundamental-form formulas with an unconditional division by the metric
determinant `e*g - f*f`, and no degenerate-metric guard.  Stated separately
from `compute_curvature` so that the equivalence theorem compares the code
against this description. -/
noncomputable def curvatureUnguardedFormula (S : NURBSSurface) (u v : ℚ) :
    ℝ × ℝ :=
  let l := dotR (secondDerivs S u v).1 (compute_normal S u v)
  let m := dotR (secondDerivs S u v).2.2 (compute_normal S u v)
  let n_coef := dotR (secondDerivs S u v).2.1 (compute_normal S u v)
  let det : ℝ := ((metricDet S u v : ℚ) : ℝ)
  let k_gaussian := (l * n_coef - m * m) / det
  let k_mean := (((metricEFG S u v).1 : ℝ) * n_coef -
    2 * ((metricEFG S u v).2.1 : ℝ) * m + ((metricEFG S u v).2.2 : ℝ) * l) /
    (2 * det)
  (k_mean + Real.sqrt (max (k_mean * k_mean - k_gaussian) 0),
   k_mean - Real.sqrt (max (k_mean * k_mean - k_gaussian) 0))

/-- The knot vector `[0,0,0,0,0.5,1,1,1,1]` used by the kernel's unit tests
and by the spec's testable properties. -/
def testKnots : List ℚ := [0, 0, 0, 0, 1/2, 1, 1, 1, 1]

/-- A flat bilinear unit-square surface: degree 1 in both directions, 2×2
control grid `C[i][j] = (i, j, 0)`, unit weights, knots `[0,0,1,1]`.  Used
as a concrete witness surface. -/
def flatPlane : NURBSSurface where
  degree_u := 1
  degree_v := 1
  u_count := 2
  v_count := 2
  control_points := fun i j => ⟨(i : ℚ), (j : ℚ), 0⟩
  weights := fun _ _ => 1
  knots_u := [0, 0, 1, 1]
  knots_v := [0, 0, 1, 1]

/-- A biquadratic Bézier patch with `P(u,v) = (0, 0, u²v²)`: degree 2 per
axis, 3×3 grid with the single nonzero control height `z[2][2] = 1`, unit
weights, knots `[0,0,0,1,1,1]`.  Its mixed partial separates the two `duv`
stencils. -/
def squarePatch : NURBSSurface where
  degree_u := 2
  degree_v := 2
  u_count := 3
  v_count := 3
  control_points := fun i j => ⟨0, 0, if i = 2 ∧ j = 2 then 1 else 0⟩
  weights := fun _ _ => 1
  knots_u := [0, 0, 0, 1, 1, 1]
  knots_v := [0, 0, 0, 1, 1, 1]

/-- A nearly degenerate patch with `P(u,v) = (0, v/10^8, u²/1000)`: degree
(2,1), 3×2 grid, unit weights.  At `(1/2, 1/2)` its metric determinant is
`10⁻²²`, far below the `1e-14` threshold, while its principal curvatures
are large. -/
def thinPatch : NURBSSurface where
  degree_u := 2
  degree_v := 1
  u_count := 3
  v_count := 2
  control_points := fun i j =>
    ⟨0, (j : ℚ) / 10 ^ 8, if i = 2 then 1 / 1000 else 0⟩
  weights := fun _ _ => 1
  knots_u := [0, 0, 0, 1, 1, 1]
  knots_v := [0, 0, 1, 1]

/-- A bilinear strip with `P(u,v) = (u/10^10, 0, v)`: its tangent cross
product at any interior point has length exactly `1e-10`, sitting on the
boundary of `compute_normal`'s degeneracy test. -/
def thinStrip : NURBSSurface where
  degree_u := 1
  degree_v := 1
  u_count := 2
  v_count := 2
  control_points := fun i j => ⟨(i : ℚ) / 10 ^ 10, 0, (j : ℚ)⟩
  weights := fun _ _ => 1
  knots_u := [0, 0, 1, 1]
  knots_v := [0, 0, 1, 1]

theorem spanSearch_bounds (t : ℚ) (knots : List ℚ) :
    ∀ k low high, high - low ≤ k → low < high →
      low ≤ spanSearch t knots low high ∧ spanSearch t knots low high < high := by
  intro k
  induction k with
  | zero => intro low high hk hlt; omega
  | succ k ih =>
    intro low high hk hlt
    rw [spanSearch]
    by_cases h : high - low > 1
    · rw [if_pos h]
      by_cases hc : t < knot knots ((low + high) / 2)
      · rw [if_pos hc]
        have h2 := ih low ((low + high) / 2) (by omega) (by omega)
        omega
      · rw [if_neg hc]
        have h2 := ih ((low + high) / 2) high (by omega) (by omega)
        omega
    · rw [if_neg h]
      omega

theorem knot_mono {knots : List ℚ} (hs : List.Sorted (· ≤ ·) knots)
    {i j : ℕ} (hij : i ≤ j) (hj : j < knots.length) :
    knot knots i ≤ knot knots j := by
  unfold knot
  rw [List.getD_eq_getElem _ _ (lt_of_le_of_lt hij hj), List.getD_eq_getElem _ _ hj]
  rcases Nat.eq_or_lt_of_le hij with rfl | h
  · exact le_refl _
  · exact List.pairwise_iff_getElem.mp hs i j (lt_of_le_of_lt hij hj) hj h

theorem basis_funs_testKnots_span3 (t : ℚ) :
    basis_funs 3 t 3 testKnots =
      [(1 - 2*t)^3, 2*t*(3 - 9*t + 7*t^2), 2*t^2*(3 - 4*t), 2*t^3] := by
  norm_num [basis_funs, basisOuterStep, basisInnerStep, leftK, rightK, knot,
    List.range_succ, List.replicate_succ, List.set_cons_zero, List.set_cons_succ,
    testKnots]
  refine ⟨by ring, by ring, by ring, by ring⟩

theorem basis_funs_testKnots_span4 (t : ℚ) :
    basis_funs 4 t 3 testKnots =
      [2*(1 - t)^3, 2*(1 - t)^2*(4*t - 1), 2*(1 - t)*(7*t^2 - 5*t + 1),
       (2*t - 1)^3] := by
  norm_num [basis_funs, basisOuterStep, basisInnerStep, leftK, rightK, knot,
    List.range_succ, List.replicate_succ, List.set_cons_zero, List.set_cons_succ,
    testKnots]
  refine ⟨by ring, by ring, by ring, by ring⟩

theorem find_span_testKnots_lo {t : ℚ} (h1 : t < 1/2) :
    find_span t 3 testKnots = 3 := by
  rw [find_span]
  have hn : ¬ ((1:ℚ) ≤ t) := by linarith
  by_cases h0 : t ≤ 0
  · norm_num [knot, testKnots, hn, h0]
  · norm_num [knot, testKnots, hn, h0]
    rw [spanSearch]
    norm_num [knot, testKnots]
    rw [if_pos h1, spanSearch]
    norm_num

theorem find_span_testKnots_hi {t : ℚ} (h0 : 1/2 ≤ t) :
    find_span t 3 testKnots = 4 := by
  rw [find_span]
  by_cases hn : (1:ℚ) ≤ t
  · norm_num [knot, testKnots, hn]
  · have h0' : ¬ (t ≤ 0) := by linarith
    norm_num [knot, testKnots, hn, h0']
    rw [spanSearch]
    norm_num [knot, testKnots]
    have hlt : ¬ (t < 1/2) := by linarith
    rw [if_neg hlt, spanSearch]
    norm_num

theorem evaluate_all_testKnots_lo {t : ℚ} (h1 : t < 1/2) :
    evaluate_all t testKnots 3 =
      [(1 - 2*t)^3, 2*t*(3 - 9*t + 7*t^2), 2*t^2*(3 - 4*t), 2*t^3, 0] := by
  rw [evaluate_all]
  rw [show testKnots.length - 3 - 1 = 5 by norm_num [testKnots]]
  rw [find_span_testKnots_lo h1, basis_funs_testKnots_span3]
  norm_num [scatterStep, List.range_succ, List.replicate_succ,
    List.set_cons_zero, List.set_cons_succ, List.getD_cons_zero,
    List.getD_cons_succ]

theorem evaluate_all_testKnots_hi {t : ℚ} (h0 : 1/2 ≤ t) :
    evaluate_all t testKnots 3 =
      [0, 2*(1 - t)^3, 2*(1 - t)^2*(4*t - 1), 2*(1 - t)*(7*t^2 - 5*t + 1),
       (2*t - 1)^3] := by
  rw [evaluate_all]
  rw [show testKnots.length - 3 - 1 = 5 by norm_num [testKnots]]
  rw [find_span_testKnots_hi h0, basis_funs_testKnots_span4]
  norm_num [scatterStep, List.range_succ, List.replicate_succ,
    List.set_cons_zero, List.set_cons_succ, List.getD_cons_zero,
    List.getD_cons_succ]

/-- Claim C5: for the knot vector `[0,0,0,0,0.5,1,1,1,1]` with degree 3 and
every `t ∈ [0,1]`, all values written by `evaluate_all` are nonnegative and
their sum equals 1 within `1e-10` (partition of unity). -/
theorem claim_C5 (t : ℚ) (h0 : 0 ≤ t) (h1 : t ≤ 1) :
    (∀ b ∈ evaluate_all t testKnots 3, 0 ≤ b) ∧
    |(evaluate_all t testKnots 3).sum - 1| < 1/10^10 := by
  rcases lt_or_le t (1/2) with hlt | hge
  · rw [evaluate_all_testKnots_lo hlt]
    constructor
    · intro b hb
      simp only [List.mem_cons, List.not_mem_nil, or_false] at hb
      rcases hb with rfl | rfl | rfl | rfl | rfl
      · exact pow_nonneg (by linarith) 3
      · exact mul_nonneg (by linarith) (by nlinarith [sq_nonneg (14*t - 9)])
      · exact mul_nonneg (by positivity) (by linarith)
      · positivity
      · exact le_refl 0
    · simp only [List.sum_cons, List.sum_nil]
      rw [abs_lt]
      constructor <;> nlinarith
  · rw [evaluate_all_testKnots_hi hge]
    constructor
    · intro b hb
      simp only [List.mem_cons, List.not_mem_nil, or_false] at hb
      rcases hb with rfl | rfl | rfl | rfl | rfl
      · exact le_refl 0
      · exact mul_nonneg (by norm_num) (pow_nonneg (by linarith) 3)
      · exact mul_nonneg (mul_nonneg (by norm_num) (by positivity)) (by linarith)
      · exact mul_nonneg (mul_nonneg (by norm_num) (by linarith))
          (by nlinarith [sq_nonneg (14*t - 5)])
      · exact pow_nonneg (by linarith) 3
    · simp only [List.sum_cons, List.sum_nil]
      rw [abs_lt]
      constructor <;> nlinarith

/-- Witness for C5 at `t = 1/4`. -/
theorem claim_C5_witness :
    (∀ b ∈ evaluate_all (1/4) testKnots 3, 0 ≤ b) ∧
    |(evaluate_all (1/4) testKnots 3).sum - 1| < 1/10^10 :=
  claim_C5 (1/4) (by norm_num) (by norm_num)

/-- Claim C6: for a non-decreasing knot vector with `knots[degree] < knots[n]`
(where `n = knots.len() - degree - 1`), `find_span` clamps to `n-1` when
`t ≥ knots[n]`, clamps to `degree` when `t ≤ knots[degree]`, and otherwise
returns the binary-search result; the result always lies in `[degree, n-1]`;
and on `[0,0,0,0,0.5,1,1,1,1]` with degree 3 the spans of
`0, 0.25, 0.5, 0.75, 1` are `3, 3, 4, 4, 4`. -/
theorem claim_C6 (t : ℚ) (degree : ℕ) (knots : List ℚ)
    (hs : List.Sorted (· ≤ ·) knots) (hlen : degree + 1 < knots.length)
    (hstrict : knot knots degree < knot knots (knots.length - degree - 1)) :
    (knot knots (knots.length - degree - 1) ≤ t →
      find_span t degree knots = knots.length - degree - 1 - 1) ∧
    (t ≤ knot knots degree → find_span t degree knots = degree) ∧
    (knot knots degree < t → t < knot knots (knots.length - degree - 1) →
      find_span t degree knots =
        spanSearch t knots degree (knots.length - degree - 1)) ∧
    degree ≤ find_span t degree knots ∧
    find_span t degree knots ≤ knots.length - degree - 1 - 1 ∧
    find_span 0 3 testKnots = 3 ∧ find_span (1/4) 3 testKnots = 3 ∧
    find_span (1/2) 3 testKnots = 4 ∧ find_span (3/4) 3 testKnots = 4 ∧
    find_span 1 3 testKnots = 4 := by
  have hdn : degree < knots.length - degree - 1 := by
    by_contra hc
    push_neg at hc
    exact absurd (knot_mono hs hc (by omega)) (not_le.mpr hstrict)
  have hgoal : ∀ s : ℚ, degree ≤ find_span s degree knots ∧
      find_span s degree knots ≤ knots.length - degree - 1 - 1 := by
    intro s
    rw [find_span]
    by_cases hup : s ≥ knot knots (knots.length - degree - 1)
    · rw [if_pos hup]
      omega
    · rw [if_neg hup]
      by_cases hdown : s ≤ knot knots degree
      · rw [if_pos hdown]
        omega
      · rw [if_neg hdown]
        have hb := spanSearch_bounds s knots (knots.length - degree - 1 - degree)
          degree (knots.length - degree - 1) (by omega) hdn
        omega
  refine ⟨?_, ?_, ?_, (hgoal t).1, (hgoal t).2, ?_, ?_, ?_, ?_, ?_⟩
  · intro hup
    rw [find_span, if_pos (ge_iff_le.mpr hup)]
  · intro hdown
    have hup : ¬ (t ≥ knot knots (knots.length - degree - 1)) := by
      simp only [ge_iff_le, not_le]
      exact lt_of_le_of_lt hdown hstrict
    rw [find_span, if_neg hup, if_pos hdown]
  · intro h1 h2
    rw [find_span, if_neg (by simp only [ge_iff_le, not_le]; exact h2),
      if_neg (by simp only [not_le]; exact h1)]
  · exact find_span_testKnots_lo (by norm_num)
  · exact find_span_testKnots_lo (by norm_num)
  · exact find_span_testKnots_hi (by norm_num)
  · exact find_span_testKnots_hi (by norm_num)
  · exact find_span_testKnots_hi (by norm_num)

/-- Witness for C6 on the test knot vector, degree 3, `t = 1/4`. -/
theorem claim_C6_witness :
    3 ≤ find_span (1/4) 3 testKnots ∧ find_span (1/4) 3 testKnots ≤ 4 :=
  have h := claim_C6 (1/4) 3 testKnots
    (by norm_num [testKnots, List.sorted_cons])
    (by norm_num [testKnots])
    (by norm_num [testKnots, knot])
  ⟨h.2.2.2.1, h.2.2.2.2.1⟩

theorem foldl_add_range (f : ℕ → ℚ) (n : ℕ) (a : ℚ) :
    (List.range n).foldl (fun acc i => acc + f i) a =
      a + ∑ i ∈ Finset.range n, f i := by
  induction n with
  | zero => simp
  | succ n ih =>
    rw [List.range_succ, List.foldl_append, ih, Finset.sum_range_succ,
      List.foldl_cons, List.foldl_nil, add_assoc]

theorem foldl_vec_range (fx fy fz : ℕ → ℚ) (n : ℕ) (p : Vec3) :
    (List.range n).foldl
      (fun q i => ⟨q.x + fx i, q.y + fy i, q.z + fz i⟩) p =
      ⟨p.x + ∑ i ∈ Finset.range n, fx i, p.y + ∑ i ∈ Finset.range n, fy i,
       p.z + ∑ i ∈ Finset.range n, fz i⟩ := by
  induction n with
  | zero => simp
  | succ n ih =>
    rw [List.range_succ, List.foldl_append, ih, List.foldl_cons, List.foldl_nil,
      Finset.sum_range_succ, Finset.sum_range_succ, Finset.sum_range_succ]
    simp [add_assoc]

theorem weightSum_eq (S : NURBSSurface) (bu bv : List ℚ) :
    S.weightSum bu bv =
      ∑ i ∈ Finset.range S.u_count, ∑ j ∈ Finset.range S.v_count,
        bu.getD i 0 * bv.getD j 0 * S.weights i j := by
  rw [NURBSSurface.weightSum]
  simp only [foldl_add_range]
  rw [zero_add]

theorem evaluate_eq_spec (S : NURBSSurface) (u v : ℚ) :
    S.evaluate u v = specRationalPoint S u v := by
  rw [NURBSSurface.evaluate, specRationalPoint]
  simp only [weightSum_eq]
  simp only [foldl_vec_range]
  simp

/-- Claim C4: for every validly constructed surface and every `(u,v)`,
`evaluate` returns the rational point
`P(u,v) = Σ_i Σ_j [basis_u[i]·basis_v[j]·w[i,j] / S] · C[i,j]` with
`S = Σ Σ basis_u·basis_v·w`, summing over the full control grid with the
full-length zero-padded basis arrays. -/
theorem claim_C4 (S : NURBSSurface) (u v : ℚ) (hvalid : S.valid) :
    S.evaluate u v = specRationalPoint S u v :=
  evaluate_eq_spec S u v

/-- Witness for C4 on the flat bilinear plane at `(1/2, 1/2)`. -/
theorem claim_C4_witness :
    flatPlane.evaluate (1/2) (1/2) = specRationalPoint flatPlane (1/2) (1/2) :=
  claim_C4 flatPlane (1/2) (1/2) (by constructor <;> norm_num [flatPlane])

/-- Claim C7: `evaluate_batch` returns one output per input pair, in order:
the `k`-th output equals `evaluate` applied to the `k`-th input pair.  (The
source's `rayon` parallel map is order-preserving and side-effect free, so
this is also its sequential semantics.) -/
theorem claim_C7 (S : NURBSSurface) (ps : List (ℚ × ℚ)) :
    (S.evaluate_batch ps).length = ps.length ∧
    ∀ k, k < ps.length →
      (S.evaluate_batch ps).getD k ⟨0, 0, 0⟩ =
        S.evaluate (ps.getD k (0, 0)).1 (ps.getD k (0, 0)).2 := by
  constructor
  · simp [NURBSSurface.evaluate_batch]
  · intro k hk
    rw [NURBSSurface.evaluate_batch,
      List.getD_eq_getElem _ _ (by simpa using hk),
      List.getD_eq_getElem _ _ hk]
    simp

/-- Witness for C7 on the flat plane with a two-element batch. -/
theorem claim_C7_witness :
    (flatPlane.evaluate_batch [(0, 0), (1, 1)]).length = 2 ∧
    (flatPlane.evaluate_batch [(0, 0), (1, 1)]).getD 1 ⟨0, 0, 0⟩ =
      flatPlane.evaluate 1 1 := by
  have h := claim_C7 flatPlane [(0, 0), (1, 1)]
  exact ⟨h.1, by simpa using h.2 1 (by norm_num)⟩

/-- Claim C8: for sample counts `≥ 2`, `evaluate_grid` returns a
`u_samples × v_samples` grid of points whose entry `(i,j)` is
`evaluate(i/(u_samples-1), j/(v_samples-1))`. -/
theorem claim_C8 (S : NURBSSurface) (us vs : ℕ) (hu : 2 ≤ us) (hv : 2 ≤ vs) :
    (S.evaluate_grid us vs).length = us ∧
    (∀ i, i < us → ((S.evaluate_grid us vs).getD i []).length = vs) ∧
    ∀ i j, i < us → j < vs →
      ((S.evaluate_grid us vs).getD i []).getD j ⟨0, 0, 0⟩ =
        S.evaluate ((i : ℚ) / ((us : ℚ) - 1)) ((j : ℚ) / ((vs : ℚ) - 1)) := by
  have hcu : ((us - 1 : ℕ) : ℚ) = (us : ℚ) - 1 := by
    push_cast [Nat.cast_sub (by omega : 1 ≤ us)]
    ring
  have hcv : ((vs - 1 : ℕ) : ℚ) = (vs : ℚ) - 1 := by
    push_cast [Nat.cast_sub (by omega : 1 ≤ vs)]
    ring
  have hlen1 : (S.evaluate_grid us vs).length = us := by
    simp only [NURBSSurface.evaluate_grid]
    rw [List.length_map, List.length_range]
  have hrow : ∀ i, i < us → (S.evaluate_grid us vs).getD i [] =
      (List.range vs).map (fun (j : ℕ) =>
        S.evaluate ((i : ℚ) * (1 / ((us - 1 : ℕ) : ℚ)))
          ((j : ℚ) * (1 / ((vs - 1 : ℕ) : ℚ)))) := by
    intro i hi
    simp only [NURBSSurface.evaluate_grid]
    rw [List.getD_eq_getElem _ _
      (by rw [List.length_map, List.length_range]; exact hi)]
    rw [List.getElem_map, List.getElem_range]
  refine ⟨hlen1, ?_, ?_⟩
  · intro i hi
    rw [hrow i hi, List.length_map, List.length_range]
  · intro i j hi hj
    rw [hrow i hi]
    rw [List.getD_eq_getElem _ _
      (by rw [List.length_map, List.length_range]; exact hj)]
    rw [List.getElem_map, List.getElem_range, hcu, hcv, mul_one_div, mul_one_div]

/-- Witness for C8 on the flat plane with a 2×3 grid. -/
theorem claim_C8_witness :
    (flatPlane.evaluate_grid 2 3).length = 2 ∧
    ((flatPlane.evaluate_grid 2 3).getD 1 []).getD 2 ⟨0, 0, 0⟩ =
      flatPlane.evaluate ((1 : ℚ) / 1) ((2 : ℚ) / 2) := by
  have h := claim_C8 flatPlane 2 3 (by norm_num) (by norm_num)
  refine ⟨h.1, ?_⟩
  have h2 := h.2.2 1 2 (by norm_num) (by norm_num)
  norm_num at h2 ⊢
  exact h2

/-- Claim C10 (implicit): multiplying every weight by a positive constant
`c` leaves `evaluate` unchanged, since `c` cancels between the weighted sum
and the normalizing weight sum. -/
theorem claim_C10 (S : NURBSSurface) (c : ℚ) (hc : 0 < c) (u v : ℚ) :
    (scaleWeights S c).evaluate u v = S.evaluate u v := by
  have hc0 : c ≠ 0 := ne_of_gt hc
  rw [evaluate_eq_spec, evaluate_eq_spec]
  rw [specRationalPoint, specRationalPoint]
  simp only [scaleWeights]
  have hT : (∑ i ∈ Finset.range S.u_count, ∑ j ∈ Finset.range S.v_count,
      (evaluate_all u S.knots_u S.degree_u).getD i 0 *
        (evaluate_all v S.knots_v S.degree_v).getD j 0 * (c * S.weights i j)) =
      c * ∑ i ∈ Finset.range S.u_count, ∑ j ∈ Finset.range S.v_count,
      (evaluate_all u S.knots_u S.degree_u).getD i 0 *
        (evaluate_all v S.knots_v S.degree_v).getD j 0 * S.weights i j := by
    rw [Finset.mul_sum]
    refine Finset.sum_congr rfl fun i _ => ?_
    rw [Finset.mul_sum]
    exact Finset.sum_congr rfl fun j _ => by ring
  rw [hT]
  have hterm : ∀ i j : ℕ,
      (evaluate_all u S.knots_u S.degree_u).getD i 0 *
        (evaluate_all v S.knots_v S.degree_v).getD j 0 * (c * S.weights i j) /
        (c * ∑ i ∈ Finset.range S.u_count, ∑ j ∈ Finset.range S.v_count,
          (evaluate_all u S.knots_u S.degree_u).getD i 0 *
            (evaluate_all v S.knots_v S.degree_v).getD j 0 * S.weights i j) =
      (evaluate_all u S.knots_u S.degree_u).getD i 0 *
        (evaluate_all v S.knots_v S.degree_v).getD j 0 * S.weights i j /
        (∑ i ∈ Finset.range S.u_count, ∑ j ∈ Finset.range S.v_count,
          (evaluate_all u S.knots_u S.degree_u).getD i 0 *
            (evaluate_all v S.knots_v S.degree_v).getD j 0 * S.weights i j) := by
    intro i j
    rw [show (evaluate_all u S.knots_u S.degree_u).getD i 0 *
        (evaluate_all v S.knots_v S.degree_v).getD j 0 * (c * S.weights i j) =
        c * ((evaluate_all u S.knots_u S.degree_u).getD i 0 *
          (evaluate_all v S.knots_v S.degree_v).getD j 0 * S.weights i j) by ring]
    rw [mul_div_mul_left _ _ hc0]
  simp only [Vec3.mk.injEq]
  refine ⟨?_, ?_, ?_⟩ <;>
    exact Finset.sum_congr rfl fun i _ => Finset.sum_congr rfl fun j _ => by
      rw [hterm i j]

/-- Witness for C10 on the flat plane with `c = 3`. -/
theorem claim_C10_witness :
    (scaleWeights flatPlane 3).evaluate (1/2) (1/2) =
      flatPlane.evaluate (1/2) (1/2) :=
  claim_C10 flatPlane 3 (by norm_num) (1/2) (1/2)

theorem find_span_bilinear (t : ℚ) : find_span t 1 [0, 0, 1, 1] = 1 := by
  rw [find_span]
  norm_num [knot]
  intro h1 h0
  rw [spanSearch]
  norm_num

theorem find_span_bezier2 (t : ℚ) : find_span t 2 [0, 0, 0, 1, 1, 1] = 2 := by
  rw [find_span]
  norm_num [knot]
  intro h1 h0
  rw [spanSearch]
  norm_num

theorem evaluate_all_bilinear (t : ℚ) :
    evaluate_all t [0, 0, 1, 1] 1 = [1 - t, t] := by
  rw [evaluate_all]
  norm_num [find_span_bilinear]
  norm_num [basis_funs, basisOuterStep, basisInnerStep, leftK, rightK, knot,
    scatterStep, List.range_succ, List.replicate_succ, List.set_cons_zero,
    List.set_cons_succ, List.getD_cons_zero, List.getD_cons_succ]

theorem evaluate_all_bezier2 (t : ℚ) :
    evaluate_all t [0, 0, 0, 1, 1, 1] 2 = [(1 - t)^2, 2*t*(1 - t), t^2] := by
  rw [evaluate_all]
  norm_num [find_span_bezier2]
  norm_num [basis_funs, basisOuterStep, basisInnerStep, leftK, rightK, knot,
    scatterStep, List.range_succ, List.replicate_succ, List.set_cons_zero,
    List.set_cons_succ, List.getD_cons_zero, List.getD_cons_succ]
  refine ⟨by ring, by ring, by ring⟩

theorem flatPlane_weightSum (u v : ℚ) :
    flatPlane.weightSum [1 - u, u] [1 - v, v] = 1 := by
  rw [NURBSSurface.weightSum]
  norm_num [flatPlane, List.range_succ, List.getD_cons_zero, List.getD_cons_succ]
  ring

theorem flatPlane_evaluate (u v : ℚ) : flatPlane.evaluate u v = ⟨u, v, 0⟩ := by
  simp only [NURBSSurface.evaluate,
    show flatPlane.knots_u = [0, 0, 1, 1] from rfl,
    show flatPlane.knots_v = [0, 0, 1, 1] from rfl,
    show flatPlane.degree_u = 1 from rfl,
    show flatPlane.degree_v = 1 from rfl,
    evaluate_all_bilinear, flatPlane_weightSum]
  norm_num [show flatPlane.u_count = 2 from rfl, show flatPlane.v_count = 2 from rfl,
    show ∀ i j : ℕ, flatPlane.weights i j = 1 from fun _ _ => rfl,
    show ∀ i j : ℕ, flatPlane.control_points i j = ⟨(i : ℚ), (j : ℚ), 0⟩
      from fun _ _ => rfl,
    List.range_succ, List.getD_cons_zero, List.getD_cons_succ, Vec3.mk.injEq]
  constructor <;> ring

theorem thinStrip_weightSum (u v : ℚ) :
    thinStrip.weightSum [1 - u, u] [1 - v, v] = 1 := by
  rw [NURBSSurface.weightSum]
  norm_num [thinStrip, List.range_succ, List.getD_cons_zero, List.getD_cons_succ]
  ring

theorem thinStrip_evaluate (u v : ℚ) :
    thinStrip.evaluate u v = ⟨u / 10 ^ 10, 0, v⟩ := by
  simp only [NURBSSurface.evaluate,
    show thinStrip.knots_u = [0, 0, 1, 1] from rfl,
    show thinStrip.knots_v = [0, 0, 1, 1] from rfl,
    show thinStrip.degree_u = 1 from rfl,
    show thinStrip.degree_v = 1 from rfl,
    evaluate_all_bilinear, thinStrip_weightSum]
  norm_num [show thinStrip.u_count = 2 from rfl, show thinStrip.v_count = 2 from rfl,
    show ∀ i j : ℕ, thinStrip.weights i j = 1 from fun _ _ => rfl,
    show ∀ i j : ℕ, thinStrip.control_points i j =
        ⟨(i : ℚ) / 10 ^ 10, 0, (j : ℚ)⟩ from fun _ _ => rfl,
    List.range_succ, List.getD_cons_zero, List.getD_cons_succ, Vec3.mk.injEq]
  constructor <;> ring

theorem thinPatch_weightSum (u v : ℚ) :
    thinPatch.weightSum [(1 - u)^2, 2*u*(1 - u), u^2] [1 - v, v] = 1 := by
  rw [NURBSSurface.weightSum]
  norm_num [thinPatch, List.range_succ, List.getD_cons_zero, List.getD_cons_succ]
  ring

theorem thinPatch_evaluate (u v : ℚ) :
    thinPatch.evaluate u v = ⟨0, v / 10 ^ 8, u^2 / 1000⟩ := by
  simp only [NURBSSurface.evaluate,
    show thinPatch.knots_u = [0, 0, 0, 1, 1, 1] from rfl,
    show thinPatch.knots_v = [0, 0, 1, 1] from rfl,
    show thinPatch.degree_u = 2 from rfl,
    show thinPatch.degree_v = 1 from rfl,
    evaluate_all_bilinear, evaluate_all_bezier2, thinPatch_weightSum]
  norm_num [show thinPatch.u_count = 3 from rfl, show thinPatch.v_count = 2 from rfl,
    show ∀ i j : ℕ, thinPatch.weights i j = 1 from fun _ _ => rfl,
    show ∀ i j : ℕ, thinPatch.control_points i j =
        ⟨0, (j : ℚ) / 10 ^ 8, if i = 2 then 1 / 1000 else 0⟩ from fun _ _ => rfl,
    List.range_succ, List.getD_cons_zero, List.getD_cons_succ, Vec3.mk.injEq]
  constructor <;> ring

theorem squarePatch_weightSum (u v : ℚ) :
    squarePatch.weightSum [(1 - u)^2, 2*u*(1 - u), u^2]
      [(1 - v)^2, 2*v*(1 - v), v^2] = 1 := by
  rw [NURBSSurface.weightSum]
  norm_num [squarePatch, List.range_succ, List.getD_cons_zero, List.getD_cons_succ]
  ring

theorem squarePatch_evaluate (u v : ℚ) :
    squarePatch.evaluate u v = ⟨0, 0, u^2 * v^2⟩ := by
  simp only [NURBSSurface.evaluate,
    show squarePatch.knots_u = [0, 0, 0, 1, 1, 1] from rfl,
    show squarePatch.knots_v = [0, 0, 0, 1, 1, 1] from rfl,
    show squarePatch.degree_u = 2 from rfl,
    show squarePatch.degree_v = 2 from rfl,
    evaluate_all_bezier2, squarePatch_weightSum]
  norm_num [show squarePatch.u_count = 3 from rfl,
    show squarePatch.v_count = 3 from rfl,
    show ∀ i j : ℕ, squarePatch.weights i j = 1 from fun _ _ => rfl,
    show ∀ i j : ℕ, squarePatch.control_points i j =
        ⟨0, 0, if i = 2 ∧ j = 2 then 1 else 0⟩ from fun _ _ => rfl,
    List.range_succ, List.getD_cons_zero, List.getD_cons_succ, Vec3.mk.injEq]

theorem thinPatch_tangent :
    compute_tangent thinPatch (1/2) (1/2) = (⟨0, 0, 1/1000⟩, ⟨0, 1/10^8, 0⟩) := by
  rw [compute_tangent]
  simp only [thinPatch_evaluate]
  norm_num [epsTangent, min_def, max_def, Vec3.mk.injEq, Prod.ext_iff]

theorem thinStrip_tangent :
    compute_tangent thinStrip (1/2) (1/2) = (⟨1/10^10, 0, 0⟩, ⟨0, 0, 1⟩) := by
  rw [compute_tangent]
  simp only [thinStrip_evaluate]
  norm_num [epsTangent, min_def, max_def, Vec3.mk.injEq, Prod.ext_iff]

theorem thinPatch_cross :
    normalCross thinPatch (1/2) (1/2) = ⟨-(1/10^11), 0, 0⟩ := by
  rw [normalCross, thinPatch_tangent]
  norm_num [Vec3.mk.injEq]

theorem thinStrip_cross :
    normalCross thinStrip (1/2) (1/2) = ⟨0, -(1/10^10), 0⟩ := by
  rw [normalCross, thinStrip_tangent]
  norm_num [Vec3.mk.injEq]

theorem thinPatch_lenSq : normalLenSq thinPatch (1/2) (1/2) = 1/10^22 := by
  rw [normalLenSq, thinPatch_cross]
  norm_num

theorem thinStrip_lenSq : normalLenSq thinStrip (1/2) (1/2) = 1/10^20 := by
  rw [normalLenSq, thinStrip_cross]
  norm_num

theorem thinPatch_normal : compute_normal thinPatch (1/2) (1/2) = ⟨0, 0, 1⟩ := by
  rw [compute_normal, thinPatch_lenSq]
  rw [show ((1/10^22 : ℚ) : ℝ) = ((1/10^11 : ℝ))^2 by push_cast; norm_num]
  rw [Real.sqrt_sq (by norm_num : (0:ℝ) ≤ 1/10^11)]
  rw [if_neg (by norm_num)]

theorem thinStrip_sqrt :
    Real.sqrt ((normalLenSq thinStrip (1/2) (1/2) : ℚ) : ℝ) = 1/10^10 := by
  rw [thinStrip_lenSq]
  rw [show ((1/10^20 : ℚ) : ℝ) = ((1/10^10 : ℝ))^2 by push_cast; norm_num]
  exact Real.sqrt_sq (by norm_num)

theorem thinStrip_normal : compute_normal thinStrip (1/2) (1/2) = ⟨0, 0, 1⟩ := by
  rw [compute_normal]
  rw [show Real.sqrt ((normalLenSq thinStrip (1/2) (1/2) : ℚ) : ℝ) = 1/10^10 from
    thinStrip_sqrt]
  rw [if_neg (by norm_num)]

theorem thinPatch_secondDerivs :
    secondDerivs thinPatch (1/2) (1/2) = (⟨0, 0, 1/500⟩, ⟨0, 0, 0⟩, ⟨0, 0, 0⟩) := by
  rw [secondDerivs]
  simp only [thinPatch_evaluate]
  norm_num [epsCurv, min_def, max_def, Vec3.mk.injEq, Prod.ext_iff]

theorem thinPatch_metric :
    metricEFG thinPatch (1/2) (1/2) = (1/10^6, 0, 1/10^16) := by
  rw [metricEFG, thinPatch_tangent]
  norm_num [dotQ, Prod.ext_iff]

theorem thinPatch_metricDet : metricDet thinPatch (1/2) (1/2) = 1/10^22 := by
  rw [metricDet, thinPatch_metric]
  norm_num

theorem thinPatch_curvature :
    compute_curvature thinPatch (1/2) (1/2) = (2000, 0) := by
  rw [compute_curvature, thinPatch_metric, thinPatch_normal, thinPatch_secondDerivs]
  norm_num [dotR]
  rw [show ((1000000 : ℝ)) = (1000 : ℝ)^2 by norm_num]
  rw [Real.sqrt_sq (by norm_num : (0:ℝ) ≤ 1000)]
  norm_num

/-- Counterexample for C1: at `(1/2, 1/2)` on `thinPatch` the metric
determinant `e*g - f*f = 10⁻²²` is far below the claimed `1e-14` threshold,
yet `compute_curvature` returns `(2000, 0)`, not `(0, 0)`: the code has no
degenerate-metric guard and divides by the near-zero determinant. -/
theorem claim_C1_counterexample :
    |metricDet thinPatch (1/2) (1/2)| < 1/10^14 ∧
    compute_curvature thinPatch (1/2) (1/2) ≠ ((0 : ℝ), (0 : ℝ)) := by
  refine ⟨?_, ?_⟩
  · rw [thinPatch_metricDet, abs_of_pos (by norm_num : (0:ℚ) < 1/10^22)]
    norm_num
  rw [thinPatch_curvature]
  intro h
  have h1 := congrArg Prod.fst h
  norm_num at h1

/-- Amended C1: `compute_curvature` applies the fundamental-form formulas
with an unconditional division by `e*g - f*f`; there is no `|EG-F²| < 1e-14`
fallback to `(0, 0)`, and a near-zero determinant is divided by. -/
theorem claim_C1_amended (S : NURBSSurface) (u v : ℚ) :
    compute_curvature S u v = curvatureUnguardedFormula S u v := by
  rw [compute_curvature, curvatureUnguardedFormula, metricDet]
  push_cast
  ring_nf

/-- Counterexample for C2: on the patch `P(u,v) = (0,0,u²v²)` at
`(1/2, 1/2)` the `duv` computed by `compute_curvature` (the one-sided
stencil) differs from the claimed symmetric 4-point stencil. -/
theorem claim_C2_counterexample :
    (secondDerivs squarePatch (1/2) (1/2)).2.2 ≠
      duvSymmetricSpec squarePatch (1/2) (1/2) := by
  have h1 : (secondDerivs squarePatch (1/2) (1/2)).2.2 =
      ⟨0, 0, (100001/100000 : ℚ)^2⟩ := by
    rw [secondDerivs]
    simp only [squarePatch_evaluate]
    norm_num [epsCurv, min_def, max_def, Vec3.mk.injEq]
  have h2 : duvSymmetricSpec squarePatch (1/2) (1/2) = ⟨0, 0, 1⟩ := by
    rw [duvSymmetricSpec]
    simp only [squarePatch_evaluate]
    norm_num [epsCurv, Vec3.mk.injEq]
  rw [h1, h2]
  intro h
  have h3 := congrArg Vec3.z h
  norm_num at h3

/-- Amended C2: away from the clamped boundary (`u + ε ≤ 1`, `v + ε ≤ 1`),
`compute_curvature` estimates the mixed partial `duv` by the one-sided
4-point stencil `(P(u+ε,v+ε) - P(u+ε,v) - P(u,v+ε) + P(u,v)) / ε²` with
`ε = 1e-5`, not by the symmetric stencil. -/
theorem claim_C2_amended (S : NURBSSurface) (u v : ℚ)
    (hu : u + epsCurv ≤ 1) (hv : v + epsCurv ≤ 1) :
    (secondDerivs S u v).2.2 =
      ⟨((S.evaluate (u + epsCurv) (v + epsCurv)).x - (S.evaluate (u + epsCurv) v).x -
          (S.evaluate u (v + epsCurv)).x + (S.evaluate u v).x) / (epsCurv * epsCurv),
       ((S.evaluate (u + epsCurv) (v + epsCurv)).y - (S.evaluate (u + epsCurv) v).y -
          (S.evaluate u (v + epsCurv)).y + (S.evaluate u v).y) / (epsCurv * epsCurv),
       ((S.evaluate (u + epsCurv) (v + epsCurv)).z - (S.evaluate (u + epsCurv) v).z -
          (S.evaluate u (v + epsCurv)).z + (S.evaluate u v).z) / (epsCurv * epsCurv)⟩ := by
  rw [secondDerivs, min_eq_left hu, min_eq_left hv]

/-- Witness for the amended C2 on `squarePatch` at `(1/2, 1/2)`. -/
theorem claim_C2_witness :
    (secondDerivs squarePatch (1/2) (1/2)).2.2 =
      ⟨((squarePatch.evaluate (1/2 + epsCurv) (1/2 + epsCurv)).x -
          (squarePatch.evaluate (1/2 + epsCurv) (1/2)).x -
          (squarePatch.evaluate (1/2) (1/2 + epsCurv)).x +
          (squarePatch.evaluate (1/2) (1/2)).x) / (epsCurv * epsCurv),
       ((squarePatch.evaluate (1/2 + epsCurv) (1/2 + epsCurv)).y -
          (squarePatch.evaluate (1/2 + epsCurv) (1/2)).y -
          (squarePatch.evaluate (1/2) (1/2 + epsCurv)).y +
          (squarePatch.evaluate (1/2) (1/2)).y) / (epsCurv * epsCurv),
       ((squarePatch.evaluate (1/2 + epsCurv) (1/2 + epsCurv)).z -
          (squarePatch.evaluate (1/2 + epsCurv) (1/2)).z -
          (squarePatch.evaluate (1/2) (1/2 + epsCurv)).z +
          (squarePatch.evaluate (1/2) (1/2)).z) / (epsCurv * epsCurv)⟩ :=
  claim_C2_amended squarePatch (1/2) (1/2) (by norm_num [epsCurv])
    (by norm_num [epsCurv])

/-- Counterexample for C9: on `thinStrip` at `(1/2, 1/2)` the cross-product
magnitude is exactly `1e-10` — not below the threshold — yet `compute_normal`
returns the fallback `(0,0,1)` rather than the normalized cross product
`(0,-1,0)`: the code normalizes only when the length strictly exceeds
`1e-10`. -/
theorem claim_C9_counterexample :
    ¬ (Real.sqrt ((normalLenSq thinStrip (1/2) (1/2) : ℚ) : ℝ) < 1/10^10) ∧
    compute_normal thinStrip (1/2) (1/2) = ⟨0, 0, 1⟩ ∧
    compute_normal thinStrip (1/2) (1/2) ≠
      ⟨((normalCross thinStrip (1/2) (1/2)).x : ℝ) /
          Real.sqrt ((normalLenSq thinStrip (1/2) (1/2) : ℚ) : ℝ),
       ((normalCross thinStrip (1/2) (1/2)).y : ℝ) /
          Real.sqrt ((normalLenSq thinStrip (1/2) (1/2) : ℚ) : ℝ),
       ((normalCross thinStrip (1/2) (1/2)).z : ℝ) /
          Real.sqrt ((normalLenSq thinStrip (1/2) (1/2) : ℚ) : ℝ)⟩ := by
  refine ⟨by rw [thinStrip_sqrt]; norm_num, thinStrip_normal, ?_⟩
  rw [thinStrip_normal, thinStrip_sqrt, thinStrip_cross]
  intro h
  have h3 := congrArg Vec3R.z h
  norm_num at h3

/-- Amended C9: `compute_normal` returns the fallback `(0,0,1)` exactly when
the squared cross-product magnitude is at most `1e-20` (magnitude at or
below `1e-10`), and otherwise returns the cross product divided by its
magnitude; in exact arithmetic neither branch is non-finite. -/
theorem claim_C9_amended (S : NURBSSurface) (u v : ℚ) :
    (normalLenSq S u v ≤ 1/10^20 ∧ compute_normal S u v = ⟨0, 0, 1⟩) ∨
    (1/10^20 < normalLenSq S u v ∧
      compute_normal S u v =
        ⟨((normalCross S u v).x : ℝ) / Real.sqrt ((normalLenSq S u v : ℚ) : ℝ),
         ((normalCross S u v).y : ℝ) / Real.sqrt ((normalLenSq S u v : ℚ) : ℝ),
         ((normalCross S u v).z : ℝ) /
            Real.sqrt ((normalLenSq S u v : ℚ) : ℝ)⟩) := by
  have key : ((1/10^10 : ℝ) < Real.sqrt ((normalLenSq S u v : ℚ) : ℝ)) ↔
      ((1/10^20 : ℚ) < normalLenSq S u v) := by
    rw [Real.lt_sqrt (by norm_num : (0:ℝ) ≤ 1/10^10)]
    rw [show ((1/10^10 : ℝ))^2 = ((1/10^20 : ℚ) : ℝ) by push_cast; norm_num]
    exact_mod_cast Iff.rfl
  rcases le_or_lt (normalLenSq S u v) (1/10^20) with hle | hlt
  · left
    refine ⟨hle, ?_⟩
    rw [compute_normal, if_neg (fun hc => absurd (key.mp hc) (not_lt.mpr hle))]
  · right
    refine ⟨hlt, ?_⟩
    rw [compute_normal, if_pos (key.mpr hlt)]

/-- Counterexample for C3: a well-sized 2×2 control grid and weight buffer
with a malformed u-knot vector (`[0,0,1]`, length 3 instead of
`2 + 1 + 1 = 4`) passes both shape checks of `nurbs_create` and then hits
the fatal `assert_eq!` inside `NURBSSurface::new`: the call aborts, it does
not return a null handle. -/
theorem claim_C3_counterexample :
    nurbs_create 1 1 2 2
        [0,0,0, 0,1,0, 1,0,0, 1,1,0] [1,1,1,1] [0,0,1] [0,0,1,1] =
      CreateResult.panicked ∧
    CreateResult.panicked ≠ CreateResult.nullRet := by
  constructor
  · rw [nurbs_create]
    norm_num [NURBSSurface.tryNew]
  · intro h
    exact CreateResult.noConfusion h

/-- Amended C3: when the flat buffers match the announced grid shape but a
knot vector's length differs from its axis's control-point count plus degree
plus 1, `nurbs_create` panics (fatal assertion) rather than returning a null
handle; the null-returning shape checks only fire for buffer-length
mismatches, and the other boundary operations do treat a null handle as a
safe no-op. -/
theorem claim_C3_amended (du dv ur vr : ℕ) (cps ws ku kv : List ℚ)
    (hc : cps.length = ur * vr * 3) (hw : ws.length = ur * vr)
    (hk : ku.length ≠ ur + du + 1 ∨ kv.length ≠ vr + dv + 1) :
    nurbs_create du dv ur vr cps ws ku kv = CreateResult.panicked ∧
    ∀ (u v : ℚ) (out : Vec3), nurbs_evaluate none u v out = out := by
  refine ⟨?_, fun _ _ _ => rfl⟩
  rw [nurbs_create, if_neg (by rw [hc]; exact fun h => absurd rfl h),
    if_neg (by rw [hw]; exact fun h => absurd rfl h)]
  rw [NURBSSurface.tryNew, if_neg (by
    intro hand
    rcases hk with h | h
    · exact h hand.1
    · exact h hand.2)]

/-- Witness for the amended C3 at the concrete malformed input. -/
theorem claim_C3_witness :
    nurbs_create 1 1 2 2
        [0,0,0, 0,1,0, 1,0,0, 1,1,0] [1,1,1,1] [0,0,1] [0,0,1,1] =
      CreateResult.panicked ∧
    nurbs_evaluate none 0 0 ⟨1, 2, 3⟩ = ⟨1, 2, 3⟩ := by
  have h := claim_C3_amended 1 1 2 2
    [0,0,0, 0,1,0, 1,0,0, 1,1,0] [1,1,1,1] [0,0,1] [0,0,1,1]
    (by norm_num) (by norm_num) (Or.inl (by norm_num))
  exact ⟨h.1, h.2 0 0 ⟨1, 2, 3⟩⟩

end GeoModel
